import Mathlib

/-!
Verification of the SSD1322 MicroPython display driver (`ssd1322.py`).

The driver keeps a packed 4-bit grayscale framebuffer (`gs4_buf`, format
GS4_HMSB: two horizontally adjacent pixels per byte, high nibble = even x)
and exposes drawing entry points guarded by `Display.is_off_grid`.

The `FrameBuffer` pixel primitives (`pixel`, `hline`, `vline`, `fill_rect`,
`blit`) live in the external MicroPython `framebuf` module, not in this
repository; they are modelled from the spec (packing invariant of section 3,
primitive contract of section 4.1).  Everything else is translated directly
from `ssd1322.py`.
-/

namespace SSD1322

/-- A byte buffer (Python `bytearray`); every element is intended to be < 256. -/
abbrev Buf := List Nat

/-- `Display.byte_width = -(-width // 2)` (ceiling division by 2). -/
def byteWidth (width : Nat) : Nat := (width + 1) / 2

/-- Modelled from the spec: GS4_HMSB pixel write of the external `framebuf`
module (spec section 3: byte at `y*byteWidth + x/2`, high nibble if `x` even,
low nibble if `x` odd, other nibble untouched; the stored byte is truncated
to 8 bits as a `bytearray` cell). -/
def setPixel (width : Nat) (buf : Buf) (x y v : Nat) : Buf :=
  let idx := y * byteWidth width + x / 2
  let b := buf.getD idx 0
  let b' := if x % 2 = 0
    then (((v % 256) <<< 4) ||| (b &&& 0x0f)) % 256
    else ((v % 256) &&& 0x0f) ||| (b &&& 0xf0)
  buf.set idx b'

/-- Modelled from the spec: GS4_HMSB pixel read (inverse extraction,
spec section 4.1). -/
def getPixel (width : Nat) (buf : Buf) (x y : Nat) : Nat :=
  let b := buf.getD (y * byteWidth width + x / 2) 0
  if x % 2 = 0 then b >>> 4 else b &&& 0x0f

/-- `Display.is_off_grid(xmin, ymin, xmax, ymax)`: the four checks are made
in source order, each printing a diagnostic and returning `True` on failure. -/
def isOffGrid (W H : Nat) (xmin ymin xmax ymax : Int) : Bool :=
  if xmin < 0 then true
  else if ymin < 0 then true
  else if xmax ≥ (W : Int) then true
  else if ymax ≥ (H : Int) then true
  else false

/-- `Display.draw_pixel`: guard the single pixel, then write it. -/
def drawPixel (W H : Nat) (buf : Buf) (x y : Int) (gs : Nat) : Buf :=
  if isOffGrid W H x y x y then buf
  else setPixel W buf x.toNat y.toNat gs

/-- Modelled from the spec: `framebuf.hline` as a row fill built from
`setPixel` (spec section 4.1); writes pixels `x .. x+w-1` of row `y`. -/
def hlineRaw (W : Nat) (buf : Buf) (x y w gs : Nat) : Buf :=
  (List.range w).foldl (fun b i => setPixel W b (x + i) y gs) buf

/-- Modelled from the spec: `framebuf.vline` as a column fill built from
`setPixel` (spec section 4.1); writes pixels `y .. y+h-1` of column `x`. -/
def vlineRaw (W : Nat) (buf : Buf) (x y h gs : Nat) : Buf :=
  (List.range h).foldl (fun b j => setPixel W b x (y + j) gs) buf

/-- Modelled from the spec: `framebuf.fill_rect` as stacked row fills
(spec section 4.1). -/
def fillRectRaw (W : Nat) (buf : Buf) (x y w h gs : Nat) : Buf :=
  (List.range h).foldl (fun b j => hlineRaw W b x (y + j) w gs) buf

/-- `Display.draw_hline`: guard the box `(x, y, x+w-1, y)`, then fill the row. -/
def drawHline (W H : Nat) (buf : Buf) (x y w : Int) (gs : Nat) : Buf :=
  if isOffGrid W H x y (x + w - 1) y then buf
  else hlineRaw W buf x.toNat y.toNat w.toNat gs

/-- `Display.draw_vline`: guard the box `(x, y, x, y+h)` — note the source
tests `y + h`, not the last drawn row `y + h - 1` — then fill the column. -/
def drawVline (W H : Nat) (buf : Buf) (x y h : Int) (gs : Nat) : Buf :=
  if isOffGrid W H x y x (y + h) then buf
  else vlineRaw W buf x.toNat y.toNat h.toNat gs

/-- `Display.fill_rectangle`: guard the box `(x, y, x+w-1, y+h-1)`, then fill. -/
def fillRectangle (W H : Nat) (buf : Buf) (x y w h : Int) (gs : Nat) : Buf :=
  if isOffGrid W H x y (x + w - 1) (y + h - 1) then buf
  else fillRectRaw W buf x.toNat y.toNat w.toNat h.toNat gs

/-- `Display.draw_rectangle`: no bounds guard at all — delegates directly to
the external `framebuf.rect` (passed here as `fbRect`). -/
def drawRectangle (fbRect : Buf → Int → Int → Int → Int → Nat → Buf)
    (buf : Buf) (x y w h : Int) (gs : Nat) : Buf :=
  fbRect buf x y w h gs

/-- `Display.draw_text8x8`: guard the box `(x, y, x+8, y+8)`, then delegate to
the external `framebuf.text` (passed here as `fbText`). -/
def drawText8x8 (W H : Nat) (fbText : Buf → Int → Int → Nat → Buf)
    (buf : Buf) (x y : Int) (gs : Nat) : Buf :=
  if isOffGrid W H x y (x + 8) (y + 8) then buf
  else fbText buf x y gs

/-- `Display.draw_sprite`: guard the box `(x, y, x+w-1, y+h-1)`, then blit the
sprite through the palette (the palette setup and `framebuf.blit` are external;
they are passed here as `blit`). -/
def drawSprite (W H : Nat) (blit : Buf → Int → Int → Buf)
    (buf : Buf) (x y w h : Int) : Buf :=
  if isOffGrid W H x y (x + w - 1) (y + h - 1) then buf
  else blit buf x y

/-- `Display.draw_line`: horizontal and vertical lines are delegated to
`draw_hline`/`draw_vline` (with sorted endpoints); the general case guards the
bounding box and then calls the external `framebuf.line` Bresenham
(passed here as `fbLine`). -/
def drawLine (W H : Nat) (fbLine : Buf → Int → Int → Int → Int → Nat → Buf)
    (buf : Buf) (x1 y1 x2 y2 : Int) (gs : Nat) : Buf :=
  if y1 = y2 then
    drawHline W H buf (min x1 x2) y1 (max x1 x2 - min x1 x2 + 1) gs
  else if x1 = x2 then
    drawVline W H buf x1 (min y1 y2) (max y1 y2 - min y1 y2 + 1) gs
  else if isOffGrid W H (min x1 x2) (min y1 y2) (max x1 x2) (max y1 y2) then buf
  else fbLine buf x1 y1 x2 y2 gs

/-- The `while x < y` loop of `Display.draw_circle`; the fuel bound `r+1`
dominates the iteration count (x starts at 0 and increases each pass, the
loop stops once `x ≥ y` and `y` never exceeds `r`). -/
def drawCircleLoop (W H : Nat) (x0 y0 : Int) (gs : Nat) :
    Nat → Buf → Int → Int → Int → Int → Int → Buf
  | 0, buf, _, _, _, _, _ => buf
  | fuel + 1, buf, f, dx, dy, x, y =>
    if x < y then
      let y' := if f ≥ 0 then y - 1 else y
      let dy' := if f ≥ 0 then dy + 2 else dy
      let f' := if f ≥ 0 then f + dy' else f
      let x' := x + 1
      let dx' := dx + 2
      let f'' := f' + dx'
      let buf := drawPixel W H buf (x0 + x') (y0 + y') gs
      let buf := drawPixel W H buf (x0 - x') (y0 + y') gs
      let buf := drawPixel W H buf (x0 + x') (y0 - y') gs
      let buf := drawPixel W H buf (x0 - x') (y0 - y') gs
      let buf := drawPixel W H buf (x0 + y') (y0 + x') gs
      let buf := drawPixel W H buf (x0 - y') (y0 + x') gs
      let buf := drawPixel W H buf (x0 + y') (y0 - x') gs
      let buf := drawPixel W H buf (x0 - y') (y0 - x') gs
      drawCircleLoop W H x0 y0 gs fuel buf f'' dx' dy' x' y'
    else buf

/-- `Display.draw_circle`: midpoint circle; every point is emitted through the
per-pixel guard of `draw_pixel`. -/
def drawCircle (W H : Nat) (buf : Buf) (x0 y0 r : Int) (gs : Nat) : Buf :=
  let buf := drawPixel W H buf x0 (y0 + r) gs
  let buf := drawPixel W H buf x0 (y0 - r) gs
  let buf := drawPixel W H buf (x0 + r) y0 gs
  let buf := drawPixel W H buf (x0 - r) y0 gs
  drawCircleLoop W H x0 y0 gs (r.toNat + 1) buf (1 - r) 1 (-r - r) 0 r

/-- The `while x < y` loop of `Display.fill_circle`; every vertical run is
emitted through the guard of `draw_vline`. -/
def fillCircleLoop (W H : Nat) (x0 y0 : Int) (gs : Nat) :
    Nat → Buf → Int → Int → Int → Int → Int → Buf
  | 0, buf, _, _, _, _, _ => buf
  | fuel + 1, buf, f, dx, dy, x, y =>
    if x < y then
      let y' := if f ≥ 0 then y - 1 else y
      let dy' := if f ≥ 0 then dy + 2 else dy
      let f' := if f ≥ 0 then f + dy' else f
      let x' := x + 1
      let dx' := dx + 2
      let f'' := f' + dx'
      let buf := drawVline W H buf (x0 + x') (y0 - y') (2 * y' + 1) gs
      let buf := drawVline W H buf (x0 - x') (y0 - y') (2 * y' + 1) gs
      let buf := drawVline W H buf (x0 - y') (y0 - x') (2 * x' + 1) gs
      let buf := drawVline W H buf (x0 + y') (y0 - x') (2 * x' + 1) gs
      fillCircleLoop W H x0 y0 gs fuel buf f'' dx' dy' x' y'
    else buf

/-- `Display.fill_circle`: midpoint circle fill built on `draw_vline`. -/
def fillCircle (W H : Nat) (buf : Buf) (x0 y0 r : Int) (gs : Nat) : Buf :=
  let buf := drawVline W H buf x0 (y0 - r) (2 * r + 1) gs
  fillCircleLoop W H x0 y0 gs (r.toNat + 1) buf (1 - r) 1 (-r - r) 0 r

/-- A loaded sprite: dimensions plus the backing byte buffer. -/
structure Sprite where
  width : Nat
  height : Nat
  buf : List Nat
  deriving DecidableEq

/-- `f.read(n)`: reads at most `n` bytes from the file contents. -/
def fRead (data : List Nat) (n : Nat) : List Nat := data.take n

/-- `Display.load_sprite` for `rotate=0`, `invert=False`: reads
`array_size = w*h` bytes and wraps them directly as the sprite framebuffer.
No size check appears anywhere on this path (the 2048 ceiling exists only in
the docstring). -/
def loadSpriteBuf (w h : Nat) (data : List Nat) : Sprite :=
  { width := w, height := h, buf := fRead data (w * h) }

/-- One event on the SPI bus: a command byte sent in command mode, or a burst
of bytes sent in data mode. -/
inductive SpiEv where
  | cmd (c : Nat)
  | data (bs : List Nat)
  deriving DecidableEq

/-- `Display.write_data`: one data burst. -/
def writeData (d : List Nat) : List SpiEv := [SpiEv.data d]

/-- `Display.write_cmd(command, *args)`: the opcode in command mode, then the
arguments (if any) as one data burst. -/
def writeCmd (c : Nat) (args : List Nat) : List SpiEv :=
  [SpiEv.cmd c] ++ (if args.length > 0 then writeData args else [])

/-- `Display.set_column_address` (opcode `0x15`). -/
def setColumnAddress (s e : Nat) : List SpiEv := writeCmd 0x15 [s, e]

/-- `Display.set_row_address` (opcode `0x75`). -/
def setRowAddress (s e : Nat) : List SpiEv := writeCmd 0x75 [s, e]

/-- `Display.set_address(x0, y0, x1, y1, offset=28)`: program column bounds
(with the fixed segment offset added to both), then row bounds, then the
write-RAM command `0x5C`. -/
def setAddress (x0 y0 x1 y1 offset : Nat) : List SpiEv :=
  setColumnAddress (x0 + offset) (x1 + offset) ++
  setRowAddress y0 y1 ++
  writeCmd 0x5C []

/-- `Display.present`: full-frame address window (columns `0 .. width//4 - 1`
in addressing units, rows `0 .. height - 1`, default offset 28), then the
whole packed buffer as one data burst. -/
def present (W H : Nat) (buf : Buf) : List SpiEv :=
  setAddress 0 0 (W / 4 - 1) (H - 1) 28 ++ writeData buf

/-- A pixel grid: the pixel-level view of a framebuffer (the byte packing of
the external `framebuf` formats is not observable through the `pixel`
accessors used by the loader loops). -/
structure Grid where
  w : Nat
  h : Nat
  pix : Nat → Nat → Nat

/-- Modelled from the spec: a single `FrameBuffer.pixel(x, y, v)` write at the
pixel level (spec section 4.1 set/get contract). -/
def updPix (p : Nat → Nat → Nat) (k : Nat × Nat) (v : Nat) : Nat → Nat → Nat :=
  fun i j => if i = k.1 ∧ j = k.2 then v else p i j

/-- A `for`-loop of pixel writes: each key receives the value `f key`
(the source grids of the loader loops are distinct from the destination
buffer, so the written value depends only on the key). -/
def writeKeys (f : Nat × Nat → Nat) (keys : List (Nat × Nat))
    (p : Nat → Nat → Nat) : Nat → Nat → Nat :=
  keys.foldl (fun acc k => updPix acc k (f k)) p

/-- Destination keys of `for y1 in range(h): for x1 in range(w):
fb2.pixel(y1, x1, ...)` — pairs `(y1, x1)`. -/
def loopKeysYX (h w : Nat) : List (Nat × Nat) :=
  (List.range h).flatMap fun y1 => (List.range w).map fun x1 => (y1, x1)

/-- Destination keys of `for y1 in range(h): for x1 in range(w):
fb2.pixel(x1, y1, ...)` — pairs `(x1, y1)`. -/
def loopKeysXY (h w : Nat) : List (Nat × Nat) :=
  (List.range h).flatMap fun y1 => (List.range w).map fun x1 => (x1, y1)

/-- The 90-degree rotation of `Display.load_sprite` (and, with an offset, of
`draw_bitmap_GS4`/`draw_bitmap_mono`): a fresh zeroed `(h, w)` buffer where
destination pixel `(y1, x1)` receives source pixel `(x1, (h-1)-y1)` —
destination `(a, b) = source (b, h-1-a)`, width and height swapped. -/
def rot90 (g : Grid) : Grid :=
  { w := g.h, h := g.w,
    pix := writeKeys (fun k => g.pix k.2 (g.h - 1 - k.1)) (loopKeysYX g.h g.w)
      (fun _ _ => 0) }

/-- The mono inversion loop of `Display.load_sprite` (`rotate=0, invert=True`):
a fresh buffer where pixel `(x1, y1)` receives `fb.pixel(x1, y1) ^ 0x01`. -/
def monoInvert (g : Grid) : Grid :=
  { w := g.w, h := g.h,
    pix := writeKeys (fun k => g.pix k.1 k.2 ^^^ 0x01) (loopKeysXY g.h g.w)
      (fun _ _ => 0) }

/-- The 4-bit grayscale inversion of `Display.draw_bitmap_GS4`
(`15 - fb.pixel(x1, y1)`), as a grid transform. -/
def gs4Invert (g : Grid) : Grid :=
  { w := g.w, h := g.h,
    pix := writeKeys (fun k => 15 - g.pix k.1 k.2) (loopKeysXY g.h g.w)
      (fun _ _ => 0) }

/-- The raw-8-bit inversion loop of `Display.draw_bitmap_raw`
(`buf[i] ^= 0xFF` over the whole buffer). -/
def rawInvert (buf : List Nat) : List Nat := buf.map fun b => b ^^^ 0xFF

/-- One drawing action of the text renderer: a glyph blit or the spacing
rectangle painted between glyphs. -/
inductive TextEv where
  | glyph (x y : Int) (c : Char)
  | spacer (x y w h : Int)
  deriving DecidableEq

/-- `Display.draw_letter`: ask the font provider for the glyph; if the width
is zero return `(w, h)` without blitting; otherwise offset `x` for 180
degrees, `y` for 270 degrees, and blit. Returns the blit events plus the
reported glyph dimensions. -/
def drawLetter (font : Char → Nat × Nat) (x y : Int) (c : Char)
    (rotate : Nat) : List TextEv × Nat × Nat :=
  let w := (font c).1
  let h := (font c).2
  if w = 0 then ([], w, h)
  else
    let x' := if rotate = 180 then x - w else x
    let y' := if rotate = 270 then y - h else y
    ([TextEv.glyph x' y' c], w, h)

/-- `Display.draw_text`: draw each letter; stop as soon as the provider
reports zero width or height; otherwise paint the spacing gap and advance the
cursor along the direction given by `rotate`. Returns the emitted events and
the final cursor. -/
def drawText (font : Char → Nat × Nat) (rotate : Nat) (spacing : Nat) :
    Int → Int → List Char → List TextEv × Int × Int
  | x, y, [] => ([], x, y)
  | x, y, c :: cs =>
    let r := drawLetter font x y c rotate
    let w := r.2.1
    let h := r.2.2
    if w = 0 ∨ h = 0 then (r.1, x, y)
    else if rotate = 0 then
      let sp := if spacing ≠ 0 then [TextEv.spacer (x + w) y spacing h] else []
      let rest := drawText font rotate spacing (x + (w + spacing)) y cs
      (r.1 ++ sp ++ rest.1, rest.2)
    else if rotate = 90 then
      let sp := if spacing ≠ 0 then [TextEv.spacer x (y + h) w spacing] else []
      let rest := drawText font rotate spacing x (y + (h + spacing)) cs
      (r.1 ++ sp ++ rest.1, rest.2)
    else if rotate = 180 then
      let sp := if spacing ≠ 0 then [TextEv.spacer (x - w - spacing) y spacing h]
        else []
      let rest := drawText font rotate spacing (x - (w + spacing)) y cs
      (r.1 ++ sp ++ rest.1, rest.2)
    else if rotate = 270 then
      let sp := if spacing ≠ 0 then [TextEv.spacer x (y - h - spacing) w spacing]
        else []
      let rest := drawText font rotate spacing x (y - (h + spacing)) cs
      (r.1 ++ sp ++ rest.1, rest.2)
    else (r.1, x, y)

end SSD1322

namespace SSD1322

lemma isOffGrid_false_iff (W H : Nat) (xmin ymin xmax ymax : Int) :
    isOffGrid W H xmin ymin xmax ymax = false ↔
      0 ≤ xmin ∧ 0 ≤ ymin ∧ xmax < (W : Int) ∧ ymax < (H : Int) := by
  unfold isOffGrid
  repeat' split
  all_goals simp_all

lemma isOffGrid_true_iff (W H : Nat) (xmin ymin xmax ymax : Int) :
    isOffGrid W H xmin ymin xmax ymax = true ↔
      xmin < 0 ∨ ymin < 0 ∨ xmax ≥ (W : Int) ∨ ymax ≥ (H : Int) := by
  have h := isOffGrid_false_iff W H xmin ymin xmax ymax
  cases hb : isOffGrid W H xmin ymin xmax ymax
  · rw [hb] at h
    have hc := h.mp rfl
    simp only [Bool.false_eq_true, false_iff]
    omega
  · rw [hb] at h
    simp only [true_iff]
    by_contra hcon
    push_neg at hcon
    have : (true : Bool) = false := h.mpr (by omega)
    simp at this

lemma getD_set_self (l : List Nat) (i a : Nat) (h : i < l.length) :
    (l.set i a).getD i 0 = a := by
  induction l generalizing i with
  | nil => simp at h
  | cons hd tl ih =>
    cases i with
    | zero => simp [List.set]
    | succ n => simpa [List.set] using ih n (by simpa using h)

lemma getD_set_ne (l : List Nat) (i j a : Nat) (h : i ≠ j) :
    (l.set i a).getD j 0 = l.getD j 0 := by
  induction l generalizing i j with
  | nil => simp [List.set]
  | cons hd tl ih =>
    cases i with
    | zero =>
      cases j with
      | zero => exact absurd rfl h
      | succ m => simp [List.set]
    | succ n =>
      cases j with
      | zero => simp [List.set]
      | succ m => simpa [List.set] using ih n m (by omega)

lemma getD_lt_of_mem (l : List Nat) (i : Nat) (h : i < l.length)
    (hb : ∀ b ∈ l, b < 256) : l.getD i 0 < 256 := by
  rw [List.getD_eq_getElem l 0 h]
  exact hb _ (l.getElem_mem h)

set_option maxRecDepth 8192 in
/-- The four nibble-arithmetic facts behind the GS4_HMSB packing. -/
lemma nibbleFacts : ∀ v < 16, ∀ b < 256,
    ((((v % 256) <<< 4) ||| (b &&& 0x0f)) % 256) >>> 4 = v ∧
    ((((v % 256) <<< 4) ||| (b &&& 0x0f)) % 256) &&& 0x0f = b &&& 0x0f ∧
    (((v % 256) &&& 0x0f) ||| (b &&& 0xf0)) &&& 0x0f = v ∧
    (((v % 256) &&& 0x0f) ||| (b &&& 0xf0)) >>> 4 = b >>> 4 := by
  decide

lemma idx_lt (W H : Nat) (buf : Buf) (x y : Nat) (hx : x < W) (hy : y < H)
    (hlen : buf.length = byteWidth W * H) :
    y * byteWidth W + x / 2 < buf.length := by
  have h1 : x / 2 < byteWidth W := by unfold byteWidth; omega
  calc y * byteWidth W + x / 2
      < y * byteWidth W + byteWidth W := Nat.add_lt_add_left h1 _
    _ = (y + 1) * byteWidth W := by ring
    _ ≤ H * byteWidth W := Nat.mul_le_mul_right _ (by omega)
    _ = byteWidth W * H := Nat.mul_comm _ _
    _ = buf.length := hlen.symm

lemma getPixel_setPixel (W H : Nat) (buf : Buf) (x y v : Nat)
    (hx : x < W) (hy : y < H) (hv : v ≤ 15)
    (hlen : buf.length = byteWidth W * H) (hbytes : ∀ b ∈ buf, b < 256) :
    getPixel W (setPixel W buf x y v) x y = v ∧
    getPixel W (setPixel W buf x y v) (if x % 2 = 0 then x + 1 else x - 1) y =
      getPixel W buf (if x % 2 = 0 then x + 1 else x - 1) y ∧
    ∀ i, i ≠ y * byteWidth W + x / 2 →
      (setPixel W buf x y v).getD i 0 = buf.getD i 0 := by
  have hidx := idx_lt W H buf x y hx hy hlen
  have hb256 : buf.getD (y * byteWidth W + x / 2) 0 < 256 :=
    getD_lt_of_mem _ _ hidx hbytes
  have hfacts := nibbleFacts v (by omega) (buf.getD (y * byteWidth W + x / 2) 0) hb256
  by_cases hpar : x % 2 = 0
  · have hpart : (x + 1) / 2 = x / 2 := by omega
    have hppar : (x + 1) % 2 = 1 := by omega
    refine ⟨?_, ?_, ?_⟩
    · simp only [getPixel, setPixel, hpar, if_true, reduceIte]
      rw [getD_set_self _ _ _ hidx]
      exact hfacts.1
    · simp only [getPixel, setPixel, hpar, hpart, hppar, if_true, reduceIte]
      rw [getD_set_self _ _ _ hidx]
      simpa using hfacts.2.1
    · intro i hi
      simp only [setPixel]
      exact getD_set_ne _ _ _ _ (fun h => hi h.symm)
  · have hpar1 : x % 2 = 1 := by omega
    have hpart : (x - 1) / 2 = x / 2 := by omega
    have hppar : (x - 1) % 2 = 0 := by omega
    refine ⟨?_, ?_, ?_⟩
    · simp only [getPixel, setPixel, hpar, hpar1, if_false, reduceIte]
      rw [getD_set_self _ _ _ hidx]
      exact hfacts.2.2.1
    · simp only [getPixel, setPixel, hpar, hpart, hppar, if_false, reduceIte]
      rw [getD_set_self _ _ _ hidx]
      simpa using hfacts.2.2.2
    · intro i hi
      simp only [setPixel]
      exact getD_set_ne _ _ _ _ (fun h => hi h.symm)

/-- Claim C1: for in-bounds `(x, y)` and `v ∈ [0, 15]`, `draw_pixel(x, y, v)`
writes `v` into the nibble of byte `y*byteWidth + x/2` of the packed buffer
(high nibble if `x` is even, low nibble if `x` is odd): a subsequent pixel
read at `(x, y)` returns `v`, the horizontally adjacent pixel sharing the
byte reads back unchanged, and every byte other than `y*byteWidth + x/2` is
unchanged. -/
theorem draw_pixel_nibble_spec (W H : Nat) (buf : Buf) (x y : Int) (v : Nat)
    (hx0 : 0 ≤ x) (hxW : x < (W : Int)) (hy0 : 0 ≤ y) (hyH : y < (H : Int))
    (hv : v ≤ 15) (hlen : buf.length = byteWidth W * H)
    (hbytes : ∀ b ∈ buf, b < 256) :
    getPixel W (drawPixel W H buf x y v) x.toNat y.toNat = v ∧
    getPixel W (drawPixel W H buf x y v)
        (if x.toNat % 2 = 0 then x.toNat + 1 else x.toNat - 1) y.toNat =
      getPixel W buf (if x.toNat % 2 = 0 then x.toNat + 1 else x.toNat - 1)
        y.toNat ∧
    ∀ i, i ≠ y.toNat * byteWidth W + x.toNat / 2 →
      (drawPixel W H buf x y v).getD i 0 = buf.getD i 0 := by
  have hguard : isOffGrid W H x y x y = false :=
    (isOffGrid_false_iff W H x y x y).mpr ⟨hx0, hy0, hxW, hyH⟩
  have hx' : x.toNat < W := by omega
  have hy' : y.toNat < H := by omega
  have hmain := getPixel_setPixel W H buf x.toNat y.toNat v hx' hy' hv hlen hbytes
  simpa [drawPixel, hguard] using hmain

/-- Witness for claim C1 on a 4x2 display: writing 7 at pixel (2, 1). -/
theorem draw_pixel_nibble_spec_witness :
    getPixel 4 (drawPixel 4 2 [171, 205, 18, 52] 2 1 7) 2 1 = 7 ∧
    getPixel 4 (drawPixel 4 2 [171, 205, 18, 52] 2 1 7) 3 1 =
      getPixel 4 [171, 205, 18, 52] 3 1 ∧
    (drawPixel 4 2 [171, 205, 18, 52] 2 1 7).getD 0 0 = [171, 205, 18, 52].getD 0 0 := by
  have h := draw_pixel_nibble_spec 4 2 [171, 205, 18, 52] 2 1 7
    (by decide) (by decide) (by decide) (by decide) (by decide) (by decide)
    (by decide)
  exact ⟨h.1, by simpa using h.2.1, h.2.2 0 (by decide)⟩

/-- Claim C4: `is_off_grid(xmin, ymin, xmax, ymax)` returns `True` exactly
when `xmin < 0` or `ymin < 0` or `xmax ≥ width` or `ymax ≥ height`, and
`False` in every other case. -/
theorem is_off_grid_iff (W H : Nat) (xmin ymin xmax ymax : Int) :
    isOffGrid W H xmin ymin xmax ymax = true ↔
      xmin < 0 ∨ ymin < 0 ∨ xmax ≥ (W : Int) ∨ ymax ≥ (H : Int) :=
  isOffGrid_true_iff W H xmin ymin xmax ymax

/-- Witness for claim C4: a box one pixel past the right edge is rejected. -/
theorem is_off_grid_iff_witness :
    isOffGrid 256 64 0 0 256 63 = true :=
  (is_off_grid_iff 256 64 0 0 256 63).mpr (by omega)

/-- Claim C2 counterexample: `draw_circle` centered at `(0, 0)` with radius 1
on a 16x16 display has bounding box `(-1, -1, 1, 1)`, which is off-grid, yet
the call is not skipped: it partially draws (the in-range arc pixels are
written), so the buffer changes. -/
theorem whole_call_skip_cex :
    isOffGrid 16 16 (-1) (-1) 1 1 = true ∧
    drawCircle 16 16 (List.replicate 128 0) 0 0 1 15 ≠ List.replicate 128 0 := by
  constructor
  · decide
  · decide

/-- Claim C2 amended: the single-primitive entry points `draw_pixel`,
`draw_hline`, `draw_vline`, `fill_rectangle`, `draw_text8x8`, `draw_sprite`,
and the general (non-axis-aligned) case of `draw_line` each check their
bounding box with `is_off_grid` and skip the whole call when it fails,
proceeding with the raster write when it passes; the compound shape routines
(`draw_circle`, `fill_circle`, `draw_polygon`, `fill_polygon`, the ellipses)
validate only per emitted primitive, so an out-of-range request yields a
partial draw, and `draw_rectangle` performs no validation at all. -/
theorem guard_skip_per_entry_point :
    (∀ (W H : Nat) (buf : Buf) (x y : Int) (gs : Nat),
      (isOffGrid W H x y x y = true → drawPixel W H buf x y gs = buf) ∧
      (isOffGrid W H x y x y = false →
        drawPixel W H buf x y gs = setPixel W buf x.toNat y.toNat gs)) ∧
    (∀ (W H : Nat) (buf : Buf) (x y w : Int) (gs : Nat),
      (isOffGrid W H x y (x + w - 1) y = true →
        drawHline W H buf x y w gs = buf) ∧
      (isOffGrid W H x y (x + w - 1) y = false →
        drawHline W H buf x y w gs = hlineRaw W buf x.toNat y.toNat w.toNat gs)) ∧
    (∀ (W H : Nat) (buf : Buf) (x y h : Int) (gs : Nat),
      (isOffGrid W H x y x (y + h) = true → drawVline W H buf x y h gs = buf) ∧
      (isOffGrid W H x y x (y + h) = false →
        drawVline W H buf x y h gs = vlineRaw W buf x.toNat y.toNat h.toNat gs)) ∧
    (∀ (W H : Nat) (buf : Buf) (x y w h : Int) (gs : Nat),
      (isOffGrid W H x y (x + w - 1) (y + h - 1) = true →
        fillRectangle W H buf x y w h gs = buf) ∧
      (isOffGrid W H x y (x + w - 1) (y + h - 1) = false →
        fillRectangle W H buf x y w h gs =
          fillRectRaw W buf x.toNat y.toNat w.toNat h.toNat gs)) ∧
    (∀ (W H : Nat) (fbText : Buf → Int → Int → Nat → Buf) (buf : Buf)
        (x y : Int) (gs : Nat),
      (isOffGrid W H x y (x + 8) (y + 8) = true →
        drawText8x8 W H fbText buf x y gs = buf) ∧
      (isOffGrid W H x y (x + 8) (y + 8) = false →
        drawText8x8 W H fbText buf x y gs = fbText buf x y gs)) ∧
    (∀ (W H : Nat) (blit : Buf → Int → Int → Buf) (buf : Buf) (x y w h : Int),
      (isOffGrid W H x y (x + w - 1) (y + h - 1) = true →
        drawSprite W H blit buf x y w h = buf) ∧
      (isOffGrid W H x y (x + w - 1) (y + h - 1) = false →
        drawSprite W H blit buf x y w h = blit buf x y)) ∧
    (∀ (W H : Nat) (fbLine : Buf → Int → Int → Int → Int → Nat → Buf)
        (buf : Buf) (x1 y1 x2 y2 : Int) (gs : Nat), x1 ≠ x2 → y1 ≠ y2 →
      (isOffGrid W H (min x1 x2) (min y1 y2) (max x1 x2) (max y1 y2) = true →
        drawLine W H fbLine buf x1 y1 x2 y2 gs = buf) ∧
      (isOffGrid W H (min x1 x2) (min y1 y2) (max x1 x2) (max y1 y2) = false →
        drawLine W H fbLine buf x1 y1 x2 y2 gs = fbLine buf x1 y1 x2 y2 gs)) := by
  refine ⟨?_, ?_, ?_, ?_, ?_, ?_, ?_⟩
  · exact fun W H buf x y gs =>
      ⟨fun h => by simp [drawPixel, h], fun h => by simp [drawPixel, h]⟩
  · exact fun W H buf x y w gs =>
      ⟨fun h => by simp [drawHline, h], fun h => by simp [drawHline, h]⟩
  · exact fun W H buf x y h gs =>
      ⟨fun hg => by simp [drawVline, hg], fun hg => by simp [drawVline, hg]⟩
  · exact fun W H buf x y w h gs =>
      ⟨fun hg => by simp [fillRectangle, hg], fun hg => by simp [fillRectangle, hg]⟩
  · exact fun W H fbText buf x y gs =>
      ⟨fun h => by simp [drawText8x8, h], fun h => by simp [drawText8x8, h]⟩
  · exact fun W H blit buf x y w h =>
      ⟨fun hg => by simp [drawSprite, hg], fun hg => by simp [drawSprite, hg]⟩
  · exact fun W H fbLine buf x1 y1 x2 y2 gs hx hy =>
      ⟨fun hg => by simp [drawLine, hx, hy, hg], fun hg => by simp [drawLine, hx, hy, hg]⟩

/-- Witness for the amended claim C2: on a 16x16 display, a horizontal line
reaching x = 16 is skipped wholesale, and a fully in-range one proceeds. -/
theorem guard_skip_per_entry_point_witness :
    drawHline 16 16 (List.replicate 128 0) 10 3 7 15 = List.replicate 128 0 ∧
    drawHline 16 16 (List.replicate 128 0) 10 3 6 15 =
      hlineRaw 16 (List.replicate 128 0) 10 3 6 15 := by
  constructor
  · exact (guard_skip_per_entry_point.2.1 16 16 (List.replicate 128 0)
      10 3 7 15).1 (by decide)
  · exact (guard_skip_per_entry_point.2.1 16 16 (List.replicate 128 0)
      10 3 6 15).2 (by decide)

/-- Claim C10: `draw_vline` tests `y + h` (not the last drawn row `y + h - 1`)
against the height, so for `x ∈ [0, width)`, `y ≥ 0`, `h ≥ 1` the write
proceeds iff `y + h < height`; a line whose bottom pixel sits exactly on row
`height - 1` is skipped although every pixel it would draw is in bounds, and
`fill_circle` on a circle touching the bottom row silently loses whole
columns (center `(8, 12)`, radius 3 on a 16x16 display: column 8 stays
blank while other columns are drawn). -/
theorem draw_vline_bounds_off_by_one :
    (∀ (W H : Nat) (buf : Buf) (x y h : Int) (gs : Nat),
      0 ≤ x → x < (W : Int) → 0 ≤ y → 1 ≤ h →
      ((y + h < (H : Int) →
         drawVline W H buf x y h gs = vlineRaw W buf x.toNat y.toNat h.toNat gs) ∧
       ((H : Int) ≤ y + h → drawVline W H buf x y h gs = buf))) ∧
    drawVline 16 16 (List.replicate 128 0) 3 10 3 15 ≠ List.replicate 128 0 ∧
    drawVline 16 16 (List.replicate 128 0) 3 10 6 15 = List.replicate 128 0 ∧
    (∀ yy < 16, getPixel 16 (fillCircle 16 16 (List.replicate 128 0) 8 12 3 15) 8 yy = 0) ∧
    fillCircle 16 16 (List.replicate 128 0) 8 12 3 15 ≠ List.replicate 128 0 := by
  refine ⟨?_, by decide, by decide, by decide, by decide⟩
  intro W H buf x y h gs hx0 hxW hy0 hh
  constructor
  · intro hlt
    have hg : isOffGrid W H x y x (y + h) = false :=
      (isOffGrid_false_iff W H x y x (y + h)).mpr ⟨hx0, hy0, hxW, hlt⟩
    simp [drawVline, hg]
  · intro hge
    have hg : isOffGrid W H x y x (y + h) = true :=
      (isOffGrid_true_iff W H x y x (y + h)).mpr (by omega)
    simp [drawVline, hg]

/-- Witness for claim C10: the skipped bottom-row line on a 16x16 display
(`y = 10`, `h = 6`: last drawn row would be 15, in bounds, yet skipped). -/
theorem draw_vline_bounds_off_by_one_witness :
    drawVline 16 16 (List.replicate 128 0) 3 10 6 15 = List.replicate 128 0 :=
  ((draw_vline_bounds_off_by_one.1 16 16 (List.replicate 128 0) 3 10 6 15
    (by decide) (by decide) (by decide) (by decide)).2) (by decide)

/-- Claim C3 counterexample: `load_sprite` with `w*h = 2049 > 2048` is not
rejected — it reads and uses the file's pixel data (two different file
contents give two different sprites). -/
theorem load_size_limit_cex :
    2048 < 2049 * 1 ∧
    loadSpriteBuf 2049 1 (List.replicate 2049 171) ≠
      loadSpriteBuf 2049 1 (List.replicate 2049 0) := by
  constructor
  · decide
  · decide

/-- Claim C3 amended: the 2048 ceiling on `w*h` appears only in the loaders'
docstrings as a caller obligation; no loader enforces it.  Even above the
ceiling the call proceeds exactly as usual: `load_sprite` reads
`min(w*h, file size)` bytes and returns the sprite built from them. -/
theorem load_no_size_guard (w h : Nat) (data : List Nat)
    (_hbig : 2048 < w * h) :
    loadSpriteBuf w h data =
      { width := w, height := h, buf := data.take (w * h) } ∧
    (loadSpriteBuf w h data).buf.length = min (w * h) data.length := by
  exact ⟨rfl, by simp [loadSpriteBuf, fRead]⟩

/-- Witness for the amended claim C3 at `w*h = 2049`. -/
theorem load_no_size_guard_witness :
    loadSpriteBuf 2049 1 (List.replicate 2049 5) =
      { width := 2049, height := 1,
        buf := (List.replicate 2049 5).take (2049 * 1) } ∧
    (loadSpriteBuf 2049 1 (List.replicate 2049 5)).buf.length =
      min (2049 * 1) (List.replicate 2049 5).length :=
  load_no_size_guard 2049 1 (List.replicate 2049 5) (by decide)

/-- Claim C5: `present()` programs the address window with column range
`0 .. width//4 - 1` in addressing units (segment offset 28 added to both
column bounds), row range `0 .. height - 1`, then issues the write-RAM
command `0x5C`, then streams the whole packed buffer (`byteWidth * height`
bytes) as a single data burst. -/
theorem present_full_frame (W H : Nat) (buf : Buf)
    (_hW : 4 ≤ W) (_hH : 1 ≤ H) (hlen : buf.length = byteWidth W * H) :
    present W H buf =
      [SpiEv.cmd 0x15, SpiEv.data [0 + 28, W / 4 - 1 + 28],
       SpiEv.cmd 0x75, SpiEv.data [0, H - 1],
       SpiEv.cmd 0x5C, SpiEv.data buf] ∧
    (present W H buf).getLast? = some (SpiEv.data buf) ∧
    buf.length = byteWidth W * H := by
  refine ⟨?_, ?_, hlen⟩
  · simp [present, setAddress, setColumnAddress, setRowAddress, writeCmd,
      writeData]
  · simp [present, setAddress, setColumnAddress, setRowAddress, writeCmd,
      writeData]

/-- Witness for claim C5 on the stock 256x64 display. -/
theorem present_full_frame_witness :
    present 256 64 (List.replicate 8192 0) =
      [SpiEv.cmd 0x15, SpiEv.data [0 + 28, 256 / 4 - 1 + 28],
       SpiEv.cmd 0x75, SpiEv.data [0, 64 - 1],
       SpiEv.cmd 0x5C, SpiEv.data (List.replicate 8192 0)] :=
  (present_full_frame 256 64 (List.replicate 8192 0) (by decide) (by decide)
    (by rw [List.length_replicate]; rfl)).1

lemma mem_loopKeysYX (h w : Nat) (k : Nat × Nat) :
    k ∈ loopKeysYX h w ↔ k.1 < h ∧ k.2 < w := by
  cases k with
  | mk a b =>
    simp [loopKeysYX, List.mem_flatMap, List.mem_map, List.mem_range,
      Prod.mk.injEq]

lemma mem_loopKeysXY (h w : Nat) (k : Nat × Nat) :
    k ∈ loopKeysXY h w ↔ k.1 < w ∧ k.2 < h := by
  cases k with
  | mk a b =>
    simp only [loopKeysXY, List.mem_flatMap, List.mem_map, List.mem_range,
      Prod.mk.injEq]
    constructor
    · rintro ⟨y1, hy1, x1, hx1, rfl, rfl⟩
      exact ⟨hx1, hy1⟩
    · rintro ⟨ha, hb⟩
      exact ⟨b, hb, a, ha, rfl, rfl⟩

lemma writeKeys_apply (f : Nat × Nat → Nat) (keys : List (Nat × Nat))
    (p : Nat → Nat → Nat) (i j : Nat) :
    writeKeys f keys p i j = if (i, j) ∈ keys then f (i, j) else p i j := by
  induction keys generalizing p with
  | nil => simp [writeKeys]
  | cons k ks ih =>
    show writeKeys f ks (updPix p k (f k)) i j = _
    rw [ih]
    by_cases hmem : (i, j) ∈ ks
    · simp [hmem]
    · by_cases hk : (i, j) = k
      · subst hk
        simp [hmem, updPix]
      · have hk' : ¬(i = k.1 ∧ j = k.2) := by
          intro hc
          exact hk (Prod.ext hc.1 hc.2)
        simp [hmem, hk, updPix, hk']

lemma rot90_pix (g : Grid) (i j : Nat) :
    (rot90 g).pix i j =
      if i < g.h ∧ j < g.w then g.pix j (g.h - 1 - i) else 0 := by
  show writeKeys _ _ _ i j = _
  simp only [writeKeys_apply, mem_loopKeysYX]

lemma monoInvert_pix (g : Grid) (i j : Nat) :
    (monoInvert g).pix i j =
      if i < g.w ∧ j < g.h then g.pix i j ^^^ 0x01 else 0 := by
  show writeKeys _ _ _ i j = _
  simp only [writeKeys_apply, mem_loopKeysXY]

lemma gs4Invert_pix (g : Grid) (i j : Nat) :
    (gs4Invert g).pix i j =
      if i < g.w ∧ j < g.h then 15 - g.pix i j else 0 := by
  show writeKeys _ _ _ i j = _
  simp only [writeKeys_apply, mem_loopKeysXY]

/-- Claim C6: the loader's 90-degree rotation (destination pixel
`(a, b) =` source pixel `(b, h-1-a)`, width and height swapped), applied four
times, reproduces the original pixel grid exactly — dimensions and every
in-range pixel. -/
theorem rotate90_four_times_id (g : Grid) (a b : Nat)
    (ha : a < g.w) (hb : b < g.h) :
    (rot90 (rot90 (rot90 (rot90 g)))).w = g.w ∧
    (rot90 (rot90 (rot90 (rot90 g)))).h = g.h ∧
    (rot90 (rot90 (rot90 (rot90 g)))).pix a b = g.pix a b := by
  refine ⟨rfl, rfl, ?_⟩
  have d1h : (rot90 (rot90 (rot90 g))).h = g.w := rfl
  have d1w : (rot90 (rot90 (rot90 g))).w = g.h := rfl
  have d2h : (rot90 (rot90 g)).h = g.h := rfl
  have d2w : (rot90 (rot90 g)).w = g.w := rfl
  have d3h : (rot90 g).h = g.w := rfl
  have d3w : (rot90 g).w = g.h := rfl
  rw [rot90_pix, d1h, d1w, if_pos ⟨ha, hb⟩, rot90_pix, d2h, d2w,
    if_pos ⟨hb, by omega⟩, rot90_pix, d3h, d3w,
    if_pos ⟨by omega, by omega⟩, rot90_pix,
    if_pos ⟨by omega, by omega⟩]
  have e1 : g.w - 1 - (g.w - 1 - a) = a := by omega
  have e2 : g.h - 1 - (g.h - 1 - b) = b := by omega
  rw [e1, e2]

/-- Witness for claim C6 on a concrete 2x3 grid. -/
theorem rotate90_four_times_id_witness :
    (rot90 (rot90 (rot90 (rot90 (Grid.mk 2 3 fun a b => a * 10 + b))))).pix 1 2 =
      (Grid.mk 2 3 fun a b => a * 10 + b).pix 1 2 :=
  (rotate90_four_times_id (Grid.mk 2 3 fun a b => a * 10 + b) 1 2
    (by decide) (by decide)).2.2

/-- Claim C9: the loader's pixel inversions are involutions — raw 8-bit
buffers (`b XOR 0xFF` byte by byte), mono grids (`v XOR 1`), and 4-bit
grayscale grids (`15 - v`, for nibble-range values) all return to the
original image when inverted twice. -/
theorem invert_involution :
    (∀ buf : List Nat, rawInvert (rawInvert buf) = buf) ∧
    (∀ g : Grid, (monoInvert (monoInvert g)).w = g.w ∧
      (monoInvert (monoInvert g)).h = g.h ∧
      ∀ a b, a < g.w → b < g.h →
        (monoInvert (monoInvert g)).pix a b = g.pix a b) ∧
    (∀ g : Grid, (gs4Invert (gs4Invert g)).w = g.w ∧
      (gs4Invert (gs4Invert g)).h = g.h ∧
      ∀ a b, a < g.w → b < g.h → g.pix a b ≤ 15 →
        (gs4Invert (gs4Invert g)).pix a b = g.pix a b) := by
  refine ⟨?_, ?_, ?_⟩
  · intro buf
    rw [rawInvert, rawInvert, List.map_map]
    have hfun : ∀ b : Nat, b ^^^ 0xFF ^^^ 0xFF = b := fun b => by
      rw [Nat.xor_assoc, Nat.xor_self, Nat.xor_zero]
    calc buf.map ((fun b => b ^^^ 0xFF) ∘ fun b => b ^^^ 0xFF)
        = buf.map id := List.map_congr_left fun b _ => hfun b
      _ = buf := List.map_id buf
  · intro g
    refine ⟨rfl, rfl, fun a b ha hb => ?_⟩
    have dw : (monoInvert g).w = g.w := rfl
    have dh : (monoInvert g).h = g.h := rfl
    rw [monoInvert_pix, dw, dh, if_pos ⟨ha, hb⟩, monoInvert_pix,
      if_pos ⟨ha, hb⟩, Nat.xor_assoc, Nat.xor_self, Nat.xor_zero]
  · intro g
    refine ⟨rfl, rfl, fun a b ha hb hv => ?_⟩
    have dw : (gs4Invert g).w = g.w := rfl
    have dh : (gs4Invert g).h = g.h := rfl
    rw [gs4Invert_pix, dw, dh, if_pos ⟨ha, hb⟩, gs4Invert_pix,
      if_pos ⟨ha, hb⟩]
    omega

/-- Witness for claim C9: a concrete byte buffer and concrete grids. -/
theorem invert_involution_witness :
    rawInvert (rawInvert [0, 17, 255]) = [0, 17, 255] ∧
    (monoInvert (monoInvert (Grid.mk 3 2 fun a b => (a + b) % 2))).pix 2 1 =
      (Grid.mk 3 2 fun a b => (a + b) % 2).pix 2 1 ∧
    (gs4Invert (gs4Invert (Grid.mk 3 2 fun a b => (a + b) % 16))).pix 2 1 =
      (Grid.mk 3 2 fun a b => (a + b) % 16).pix 2 1 := by
  refine ⟨invert_involution.1 [0, 17, 255], ?_, ?_⟩
  · exact (invert_involution.2.1 (Grid.mk 3 2 fun a b => (a + b) % 2)).2.2
      2 1 (by decide) (by decide)
  · exact (invert_involution.2.2 (Grid.mk 3 2 fun a b => (a + b) % 16)).2.2
      2 1 (by decide) (by decide) (by decide)

/-- Claim C8 counterexample: in the claimed scenario (2 characters with glyph
widths 5 and 7, spacing 1, rotation 0, start `x = 0`) the cursor after the
call is 14, not 13 — `draw_text` adds `w + spacing` after every character,
including the last one. -/
theorem draw_text_cursor_cex :
    (drawText
        (fun c => if c = 'A' then (5, 9) else if c = 'B' then (7, 9)
          else (0, 0))
        0 1 0 0 ['A', 'B']).2.1 ≠ 13 := by
  decide

/-- Claim C8 amended: in the scenario with glyph widths `[5, 7]`, spacing 1,
rotation 0, start `x = 0`, the second glyph is blitted at `x = 6` and the
cursor finishes at `x = 14` (not 13: each character advances the cursor by
its width plus the spacing, the last included); in general the cursor
advances by `width + spacing` per character, and rendering stops immediately
— remaining characters are not drawn and the cursor stays put — as soon as
the provider reports zero width or height. -/
theorem draw_text_layout :
    (drawText
        (fun c => if c = 'A' then (5, 9) else if c = 'B' then (7, 9)
          else (0, 0))
        0 1 0 0 ['A', 'B'] =
      ([TextEv.glyph 0 0 'A', TextEv.spacer 5 0 1 9,
        TextEv.glyph 6 0 'B', TextEv.spacer 13 0 1 9], 14, 0)) ∧
    (∀ (font : Char → Nat × Nat) (sp : Nat) (x y : Int) (c : Char)
        (cs : List Char),
      (font c).1 ≠ 0 → (font c).2 ≠ 0 →
      drawText font 0 sp x y (c :: cs) =
        ([TextEv.glyph x y c] ++
          (if sp ≠ 0 then [TextEv.spacer (x + (font c).1) y sp (font c).2]
            else []) ++
          (drawText font 0 sp (x + ((font c).1 + sp)) y cs).1,
         (drawText font 0 sp (x + ((font c).1 + sp)) y cs).2)) ∧
    (∀ (font : Char → Nat × Nat) (sp : Nat) (x y : Int) (c : Char)
        (cs : List Char),
      (font c).1 = 0 ∨ (font c).2 = 0 →
      drawText font 0 sp x y (c :: cs) =
        ((if (font c).1 = 0 then [] else [TextEv.glyph x y c]), x, y)) := by
  refine ⟨by decide, ?_, ?_⟩
  · intro font sp x y c cs hw hh
    simp [drawText, drawLetter, hw, hh]
  · intro font sp x y c cs hz
    by_cases hw : (font c).1 = 0
    · simp [drawText, drawLetter, hw]
    · have hh : (font c).2 = 0 := by tauto
      simp [drawText, drawLetter, hw, hh]

/-- Witness for the amended claim C8: one advance step and one zero-width
stop at concrete inputs. -/
theorem draw_text_layout_witness :
    drawText (fun _ => (4, 6)) 0 2 3 0 ['x', 'y'] =
      ([TextEv.glyph 3 0 'x'] ++ [TextEv.spacer 7 0 2 6] ++
        (drawText (fun _ => (4, 6)) 0 2 (3 + (4 + 2)) 0 ['y']).1,
       (drawText (fun _ => (4, 6)) 0 2 (3 + (4 + 2)) 0 ['y']).2) ∧
    drawText (fun _ => (0, 6)) 0 2 3 0 ['x', 'y'] = ([], 3, 0) := by
  constructor
  · have h := draw_text_layout.2.1 (fun _ => (4, 6)) 2 3 0 'x' ['y']
      (by decide) (by decide)
    simpa using h
  · have h := draw_text_layout.2.2 (fun _ => (0, 6)) 2 3 0 'x' ['y']
      (Or.inl rfl)
    simpa using h

end SSD1322
